import Mathlib

/-!
Verification of the musicquiz repository (src/music.rs and src/main.rs).

The music-theory engine (notes, pitch classes, scales) is embedded from
src/music.rs; the page state machine (pages, key handlers, actions) is
embedded from src/main.rs.  Rust i8 arithmetic is modelled by Int (all
values involved stay far from the i8 bounds); the Rust remainder operator
on i8, which truncates toward zero, is modelled by Int.tmod.  Fallible
operations (Scale::tonic unwraps the first note) are modelled with Option.
-/

namespace MusicQuiz

/-! ## Embedding of src/music.rs -/

/-- The constant ALPHABET: the seven natural letters, in order. -/
def ALPHABET : List Char := ['A', 'B', 'C', 'D', 'E', 'F', 'G']

/-- The ScaleType enum: seven modal variants, in declaration order. -/
inductive ScaleType where
  | Major
  | Minor
  | Dorian
  | Phrygian
  | Lydian
  | Mixolydian
  | Locrian
deriving DecidableEq

/-- ScaleType::interval_pattern: the 8-element semitone-step pattern of each
scale type (first entry always 0). -/
def ScaleType.interval_pattern : ScaleType → List Int
  | .Major => [0, 2, 2, 1, 2, 2, 2, 1]
  | .Minor => [0, 2, 1, 2, 2, 1, 2, 2]
  | .Dorian => [0, 2, 1, 2, 2, 2, 1, 2]
  | .Phrygian => [0, 1, 2, 2, 2, 1, 2, 2]
  | .Lydian => [0, 2, 2, 2, 1, 2, 2, 1]
  | .Mixolydian => [0, 2, 2, 1, 2, 2, 1, 2]
  | .Locrian => [0, 1, 2, 2, 1, 2, 2, 2]

/-- ScaleType::all: the seven variants in declaration order. -/
def ScaleType.all : List ScaleType :=
  [.Major, .Minor, .Dorian, .Phrygian, .Lydian, .Mixolydian, .Locrian]

/-- Display label of a ScaleType, as produced by the derived AsRefStr
implementation (the variant name). -/
def ScaleType.as_ref : ScaleType → String
  | .Major => "Major"
  | .Minor => "Minor"
  | .Dorian => "Dorian"
  | .Phrygian => "Phrygian"
  | .Lydian => "Lydian"
  | .Mixolydian => "Mixolydian"
  | .Locrian => "Locrian"

/-- The Note struct: a letter spelling plus a pitch class (i8, modelled as
Int). -/
structure Note where
  spelling : Char
  pitch_class : Int
deriving DecidableEq

/-- The free function base(letter): scan ALPHABET with indices; on the entry
equal to the given letter, push the 7-letter cyclic rotation of ALPHABET
starting at that index.  A letter not in ALPHABET matches no entry, so the
result is empty. -/
def base (letter : Char) : List Char :=
  ALPHABET.enum.foldl
    (fun scale x =>
      if letter ≠ x.2 then scale
      else scale ++ (List.range ALPHABET.length).map
        (fun j => ALPHABET.getD ((x.1 + j) % ALPHABET.length) ' '))
    []

/-- The free function pitch_class(letter): semitone offset of a natural
letter from C; any other character yields the sentinel 127. -/
def pitch_class (letter : Char) : Int :=
  match letter with
  | 'C' => 0
  | 'D' => 2
  | 'E' => 4
  | 'F' => 5
  | 'G' => 7
  | 'A' => 9
  | 'B' => 11
  | _ => 127

/-- Alias for the free function pitch_class, usable inside the Note
namespace where the bare name resolves to the structure field. -/
def letter_pitch_class : Char → Int := pitch_class

/-- The free function parse_adjustment(suffix): the Rust match arms, in
order; any unrecognized suffix falls through to 0. -/
def parse_adjustment (suffix : String) : Int :=
  if suffix = "##" ∨ suffix = "♯♯" ∨ suffix = "𝄪" then 2
  else if suffix = "#" ∨ suffix = "♯" then 1
  else if suffix = "b" ∨ suffix = "♭" then -1
  else if suffix = "bb" ∨ suffix = "♭♭" ∨ suffix = "𝄫" then -2
  else 0

/-- Note::add(adjustment, spelling): transpose by the given semitone count
and re-spell; the pitch class is reduced with the Rust % operator
(truncated remainder, Int.tmod). -/
def Note.add (n : Note) (adjustment : Int) (spelling : Char) : Note :=
  { spelling := spelling, pitch_class := (n.pitch_class + adjustment).tmod 12 }

/-- Note::adjustment: derived accidental; pitch class 11 spelled C is
special-cased to -1, otherwise the difference between the pitch class and
the letter's natural pitch class. -/
def Note.adjustment (n : Note) : Int :=
  if n.pitch_class = 11 ∧ n.spelling = 'C' then -1
  else n.pitch_class - letter_pitch_class n.spelling

/-- Note::string: the letter followed by the accidental glyph selected by
the derived adjustment; any adjustment outside -2..2 renders "invalid". -/
def Note.string (n : Note) : String :=
  if n.adjustment = 2 then String.singleton n.spelling ++ "𝄪"
  else if n.adjustment = 1 then String.singleton n.spelling ++ "♯"
  else if n.adjustment = 0 then String.singleton n.spelling
  else if n.adjustment = -1 then String.singleton n.spelling ++ "♭"
  else if n.adjustment = -2 then String.singleton n.spelling ++ "𝄫"
  else "invalid"

/-- Note::parse(s): split after the first character (the spelling), parse
the rest as the accidental suffix.  The Rust code unwraps the first
character and panics on an empty string; the model is only applied to
nonempty strings and defaults the head to a blank. -/
def Note.parse (s : String) : Note :=
  let spelling := s.data.headD ' '
  let adjustment := parse_adjustment (String.mk (s.data.drop 1))
  { spelling := spelling,
    pitch_class := (letter_pitch_class spelling + adjustment).tmod 12 }

/-- Note::new(spelling, pitch_class): store the spelling and the pitch
class reduced with the Rust % operator. -/
def Note.new (spelling : Char) (pitch_class : Int) : Note :=
  { spelling := spelling, pitch_class := pitch_class.tmod 12 }

/-- circle_of_fifths(): the fixed 13-note pool of quiz tonics. -/
def circle_of_fifths : List Note :=
  ["C", "F", "Bb", "Eb", "Ab", "Db", "Gb", "F#", "B", "E", "A", "D", "G"].map
    Note.parse

/-- The Scale struct: the derived notes plus the scale type. -/
structure Scale where
  notes : List Note
  scale_type : ScaleType
deriving DecidableEq

/-- Scale::new(tonic, scale_type): for each (index, letter) of
base(tonic.spelling), sum the first index+1 entries of the interval
pattern and transpose the tonic by that amount, spelled with the letter. -/
def Scale.new (tonic : Note) (scale_type : ScaleType) : Scale :=
  { notes := (base tonic.spelling).enum.map
      (fun x => tonic.add ((scale_type.interval_pattern.take (x.1 + 1)).sum) x.2),
    scale_type := scale_type }

/-- The Clone trait implementation for Scale (impl Clone for Scale): copy
each note into a fresh vector and keep the scale type. -/
def Scale.cloneImpl (s : Scale) : Scale :=
  { notes := s.notes.foldl (fun acc e => acc ++ [e]) [],
    scale_type := s.scale_type }

/-- The inherent method Scale::clone, which shadows the trait method in a
method call s.clone(): it keeps the scale type but builds the new Scale
with an empty note vector (the notes.clone() expression is commented out
in the source). -/
def Scale.clone (s : Scale) : Scale :=
  { notes := [], scale_type := s.scale_type }

/-- Scale::tonic: the Rust code unwraps notes.get(0) and panics on an empty
note list; modelled as an Option, none standing for the panic. -/
def Scale.tonic (s : Scale) : Option Note :=
  s.notes.head?

/-! ## Embedding of src/main.rs (page state machine) -/

/-- A pressed key, following console::Key: a character key or one of the
non-character keys (collapsed to a few representatives; every handler in
the source treats all of them through its wildcard arm). -/
inductive Key where
  | char : Char → Key
  | enter : Key
  | escape : Key
  | arrowUp : Key
  | arrowDown : Key
deriving DecidableEq

/-- The handlers appearing in src/main.rs.  A Rust Page stores a plain
function pointer; the embedding stores this tag and dispatches through
handle, which is equivalent because main_page_handler is the only handler
the source ever installs. -/
inductive HandlerId where
  | mainPageHandler
deriving DecidableEq

/-- The Page struct: display text plus the handler (see HandlerId). -/
structure Page where
  text : String
  handler : HandlerId
deriving DecidableEq

/-- The Action enum: outcome of handling one key press. -/
inductive Action where
  | Noop : Action
  | Render : Page → Action
  | Destroy : Action
deriving DecidableEq

/-- main_page_handler: the Rust match arms in order — Char('1') renders the
numeric placeholder page, Char('2') renders the letter placeholder page,
Char('q') and Char('Q') destroy, everything else (including Char('3')) is
a no-op. -/
def main_page_handler (key : Key) : Action :=
  match key with
  | Key.char c =>
    if c = '1' then
      Action.Render { text := "1\n2\n3\n4\n5\n6\n7\n8\n9\n10",
                      handler := HandlerId.mainPageHandler }
    else if c = '2' then
      Action.Render { text := "A\nB\nC\nD\nE\nF\nG\nH\nI\nJ",
                      handler := HandlerId.mainPageHandler }
    else if c = 'q' ∨ c = 'Q' then Action.Destroy
    else Action.Noop
  | _ => Action.Noop

/-- main_page(): the main menu page. -/
def main_page : Page :=
  { text := "=== Music Theory Quiz Game ===\n\nWhat would you like to do?\n\n[1] Intervals\n[2] Scale Types\n[3] Chords\n\n[q] Quit",
    handler := HandlerId.mainPageHandler }

/-- Dispatch a key to the handler named by a HandlerId (the function-pointer
call in QuizScreen::run). -/
def handle : HandlerId → Key → Action
  | .mainPageHandler, k => main_page_handler k

/-- One iteration of the QuizScreen::run loop: invoke the current page's
handler with the pressed key; Noop keeps the current page, Render replaces
it with the new page, Destroy ends the loop (none). -/
def run_step (current : Page) (key : Key) : Option Page :=
  match handle current.handler key with
  | Action.Noop => some current
  | Action.Render page => some page
  | Action.Destroy => none

/-! ## Spec-side definitions for the scale-type quiz page -/

/-- Split a text into its display lines (the renderer writes one line per
newline-separated segment). -/
def text_lines (t : String) : List String :=
  (t.data.splitOn '\n').map (fun l => String.mk l)

/-- Modelled from the spec: the scale-type quiz page of §4.2 is not present
in src/ (src/main.rs renders only fixed placeholder pages), so its labeled
answer choices are modelled from the spec's words: each of the 7 choice
lines shows one ScaleType display label, so a labeled choice line is one
that contains some ScaleType label as a contiguous substring. -/
def quiz_choice_line (line : String) : Bool :=
  (ScaleType.all.map ScaleType.as_ref).any (fun l => decide (l.data <:+: line.data))

/-- Modelled from the spec: the quiz page's single tonic/scale display line
shows the tonic and the spelled-out scale; every spelled note starts with
its natural letter, so such a line contains at least one character A–G. -/
def tonic_scale_display_line (line : String) : Bool :=
  ALPHABET.any (fun c => line.data.contains c)

/-- Modelled from the spec: a text is a scale-type quiz page text when it
has exactly 7 labeled choice lines and exactly one tonic/scale display
line. -/
def quiz_page_text (t : String) : Bool :=
  decide ((text_lines t).countP quiz_choice_line = 7) &&
  decide ((text_lines t).countP tonic_scale_display_line = 1)

/-! ## Helper lemmas -/

/-- Mapping the scale-degree construction over an enumerated letter list and
projecting the spelling returns the letter list: Note::add stores the given
spelling unchanged. -/
theorem map_spelling_enumFrom (t : Note) (st : ScaleType) (n : ℕ) (l : List Char) :
    ((l.enumFrom n).map
        (fun x => t.add ((st.interval_pattern.take (x.1 + 1)).sum) x.2)).map
      Note.spelling = l := by
  induction l generalizing n with
  | nil => rfl
  | cons x xs ih => simpa [List.enumFrom, Note.add, Function.comp] using ih (n + 1)

/-- The spellings of the notes of Scale::new are exactly base of the tonic's
spelling. -/
theorem scale_notes_map_spelling (t : Note) (st : ScaleType) :
    (Scale.new t st).notes.map Note.spelling = base t.spelling :=
  map_spelling_enumFrom t st 0 (base t.spelling)

/-- A letter outside ALPHABET matches no entry of the base scan, so base
returns the empty list. -/
theorem base_eq_nil_of_not_mem (c : Char) (h : c ∉ ALPHABET) : base c = [] := by
  simp only [ALPHABET, List.mem_cons, List.not_mem_nil, or_false, not_or] at h
  obtain ⟨h1, h2, h3, h4, h5, h6, h7⟩ := h
  simp [base, ALPHABET, List.enum, List.enumFrom, h1, h2, h3, h4, h5, h6, h7]

/-- Every ScaleType is listed by ScaleType::all. -/
theorem scaleType_mem_all (st : ScaleType) : st ∈ ScaleType.all := by
  cases st <;> decide

/-- Folding push-back over a list from an accumulator appends the list. -/
theorem foldl_push_eq {α : Type} (l acc : List α) :
    l.foldl (fun a e => a ++ [e]) acc = acc ++ l := by
  induction l generalizing acc with
  | nil => simp
  | cons x xs ih => simp [List.foldl_cons, ih]

/-! ## Claim theorems -/

/-- C6: Scale::new on the tonic parsed from "C" with ScaleType::Major yields
pitch classes [0,2,4,5,7,9,11], letters [C,D,E,F,G,A,B], and derived
adjustments all 0. -/
theorem c_major_scale_exact :
    (Scale.new (Note.parse "C") ScaleType.Major).notes.map Note.pitch_class =
      [0, 2, 4, 5, 7, 9, 11] ∧
    (Scale.new (Note.parse "C") ScaleType.Major).notes.map Note.spelling =
      ['C', 'D', 'E', 'F', 'G', 'A', 'B'] ∧
    (Scale.new (Note.parse "C") ScaleType.Major).notes.map Note.adjustment =
      [0, 0, 0, 0, 0, 0, 0] := by decide

/-- C3: evaluation at the failing input — Note::parse on "Cb" (natural
letter C with the recognized flat suffix) stores pitch class -1, because
the Rust % operator truncates toward zero; the claimed invariant 0..11 is
violated. -/
theorem parse_Cb_pitch_class_negative :
    Note.parse "Cb" = { spelling := 'C', pitch_class := -1 } ∧
    ¬(0 ≤ (Note.parse "Cb").pitch_class) := by decide

/-- C9 counterexample: the method invoked by a .clone() call (the inherent
Scale::clone) discards the notes of the C major scale: the clone's note
list is empty while the original has 7 notes, so the clone does not equal
the original. -/
theorem scale_clone_drops_notes_on_c_major :
    (Scale.new (Note.parse "C") ScaleType.Major).clone.notes = [] ∧
    (Scale.new (Note.parse "C") ScaleType.Major).notes.length = 7 ∧
    (Scale.new (Note.parse "C") ScaleType.Major).clone ≠
      Scale.new (Note.parse "C") ScaleType.Major := by decide

/-- C9 (amended): the inherent Scale::clone — the method a .clone() call
resolves to — preserves only the scale type and returns an empty note
list; the Clone trait implementation is the one that copies the notes and
reproduces the scale exactly. -/
theorem scale_clone_inherent_empty_trait_id (s : Scale) :
    s.clone.notes = [] ∧ s.clone.scale_type = s.scale_type ∧ s.cloneImpl = s := by
  refine ⟨rfl, rfl, ?_⟩
  cases s with
  | mk notes st => simp [Scale.cloneImpl, foldl_push_eq]

/-- C1: for every tonic Note whose spelling is a natural letter and every
ScaleType, Scale::new produces exactly 7 notes whose spellings are 7
distinct natural letters, the first being the tonic's letter, in the fixed
cyclic order of ALPHABET starting from that letter. -/
theorem scale_uses_seven_distinct_letters_cyclic (t : Note) (st : ScaleType)
    (h : t.spelling ∈ ALPHABET) :
    (Scale.new t st).notes.length = 7 ∧
    ((Scale.new t st).notes.map Note.spelling).Nodup ∧
    (∀ c ∈ (Scale.new t st).notes.map Note.spelling, c ∈ ALPHABET) ∧
    ((Scale.new t st).notes.map Note.spelling).getD 0 ' ' = t.spelling ∧
    ∃ i ∈ List.range 7, ALPHABET.getD i ' ' = t.spelling ∧
      ∀ j, j < 7 →
        ((Scale.new t st).notes.map Note.spelling).getD j ' ' =
          ALPHABET.getD ((i + j) % 7) ' ' := by
  have hsp := scale_notes_map_spelling t st
  have hlen : (Scale.new t st).notes.length = (base t.spelling).length := by
    rw [← hsp, List.length_map]
  rw [hlen, hsp]
  simp only [ALPHABET, List.mem_cons, List.not_mem_nil, or_false] at h
  rcases h with h | h | h | h | h | h | h <;> rw [h] <;> decide

/-- C1 witness: the general theorem applied at the tonic D (pitch class 3,
a D-flat-flat-like note; the letter sequence is independent of the pitch
class) with the Mixolydian scale type. -/
theorem scale_uses_seven_distinct_letters_cyclic_witness :
    (Note.new 'D' 3).spelling ∈ ALPHABET ∧
    (Scale.new (Note.new 'D' 3) ScaleType.Mixolydian).notes.length = 7 :=
  ⟨by decide,
    (scale_uses_seven_distinct_letters_cyclic (Note.new 'D' 3)
      ScaleType.Mixolydian (by decide)).1⟩

/-- C7: for every tonic parsed from a single plain natural letter and every
ScaleType, degree 0 of Scale::new equals the parsed tonic exactly (same
spelling and same pitch class). -/
theorem scale_degree0_eq_parsed_tonic (c : Char) (st : ScaleType)
    (h : c ∈ ALPHABET) :
    (Scale.new (Note.parse (String.singleton c)) st).notes.head? =
      some (Note.parse (String.singleton c)) := by
  simp only [ALPHABET, List.mem_cons, List.not_mem_nil, or_false] at h
  rcases h with h | h | h | h | h | h | h <;> subst h <;> cases st <;> decide

/-- C7 witness: the round-trip theorem applied at the letter G with the
Locrian scale type. -/
theorem scale_degree0_eq_parsed_tonic_witness :
    'G' ∈ ALPHABET ∧
    (Scale.new (Note.parse (String.singleton 'G')) ScaleType.Locrian).notes.head? =
      some (Note.parse (String.singleton 'G')) :=
  ⟨by decide, scale_degree0_eq_parsed_tonic 'G' ScaleType.Locrian (by decide)⟩

/-- C2 counterexample: the tonic F sharp is in the circle_of_fifths pool,
yet Scale::new on it with ScaleType::Lydian derives at degree 3 the note
spelled B with pitch class 0 (B sharp), whose adjustment is -11 — outside
-2..2 — so Note::string reaches the "invalid" branch. -/
theorem fsharp_lydian_reaches_invalid :
    Note.parse "F#" ∈ circle_of_fifths ∧
    ((Scale.new (Note.parse "F#") ScaleType.Lydian).notes.getD 3
        (Note.new ' ' 0)).adjustment = -11 ∧
    ((Scale.new (Note.parse "F#") ScaleType.Lydian).notes.getD 3
        (Note.new ' ' 0)).string = "invalid" := by decide

/-- C2 (amended): for every tonic from the circle_of_fifths pool and every
ScaleType other than the pair (F sharp, Lydian), every note of the
constructed scale has a derived adjustment in -2..2 and never renders as
"invalid"; the excluded pair is the single exception, exhibited in the
counterexample. -/
theorem pool_scales_adjustment_in_range (t : Note) (st : ScaleType)
    (hmem : t ∈ circle_of_fifths)
    (hexc : ¬(t = Note.parse "F#" ∧ st = ScaleType.Lydian)) :
    ∀ n ∈ (Scale.new t st).notes,
      (-2 ≤ n.adjustment ∧ n.adjustment ≤ 2) ∧ n.string ≠ "invalid" := by
  have key : ∀ t' ∈ circle_of_fifths, ∀ st' ∈ ScaleType.all,
      ¬(t' = Note.parse "F#" ∧ st' = ScaleType.Lydian) →
      ∀ n ∈ (Scale.new t' st').notes,
        (-2 ≤ n.adjustment ∧ n.adjustment ≤ 2) ∧ n.string ≠ "invalid" := by
    decide
  exact key t hmem st (scaleType_mem_all st) hexc

/-- C2 witness: the amended theorem applied at the pool tonic E-flat with
the Phrygian scale type, specialized to the scale's first note. -/
theorem pool_scales_adjustment_in_range_witness :
    Note.parse "Eb" ∈ circle_of_fifths ∧
    ((-2 ≤ (Note.parse "Eb").adjustment ∧ (Note.parse "Eb").adjustment ≤ 2) ∧
      (Note.parse "Eb").string ≠ "invalid") :=
  ⟨by decide,
    pool_scales_adjustment_in_range (Note.parse "Eb") ScaleType.Phrygian
      (by decide) (by decide) (Note.parse "Eb") (by decide)⟩

/-- C8: parse_adjustment maps the empty suffix and the ASCII and Unicode
accidental suffixes to their adjustments (0, 1, 2, -1, -2), and every
suffix outside the recognized set falls through to 0 instead of reporting
an error. -/
theorem parse_adjustment_table_and_default :
    (parse_adjustment "" = 0 ∧ parse_adjustment "#" = 1 ∧
     parse_adjustment "##" = 2 ∧ parse_adjustment "b" = -1 ∧
     parse_adjustment "bb" = -2 ∧ parse_adjustment "♯" = 1 ∧
     parse_adjustment "♯♯" = 2 ∧ parse_adjustment "𝄪" = 2 ∧
     parse_adjustment "♭" = -1 ∧ parse_adjustment "♭♭" = -2 ∧
     parse_adjustment "𝄫" = -2) ∧
    ∀ s : String,
      s ∉ ["##", "♯♯", "𝄪", "#", "♯", "b", "♭", "bb", "♭♭", "𝄫"] →
      parse_adjustment s = 0 := by
  refine ⟨by decide, ?_⟩
  intro s hs
  simp only [List.mem_cons, List.not_mem_nil, or_false, not_or] at hs
  obtain ⟨h1, h2, h3, h4, h5, h6, h7, h8, h9, h10⟩ := hs
  simp [parse_adjustment, h1, h2, h3, h4, h5, h6, h7, h8, h9, h10]

/-- C8 witness: the default branch of the table theorem applied at the
unrecognized suffix "x". -/
theorem parse_adjustment_table_and_default_witness :
    "x" ∉ ["##", "♯♯", "𝄪", "#", "♯", "b", "♭", "bb", "♭♭", "𝄫"] ∧
    parse_adjustment "x" = 0 :=
  ⟨by decide, parse_adjustment_table_and_default.2 "x" (by decide)⟩

/-- C10: for every Note whose spelling is not a natural letter and every
ScaleType, Scale::new returns a scale with an empty note list and
Scale::tonic has no first note to unwrap (none models the panic); when the
spelling is a natural letter the tonic is present, so Scale::tonic is
total exactly under that precondition. -/
theorem scale_new_unknown_letter_empty_tonic_none (t : Note) (st : ScaleType) :
    (t.spelling ∉ ALPHABET →
      (Scale.new t st).notes = [] ∧ (Scale.new t st).tonic = none) ∧
    (t.spelling ∈ ALPHABET → (Scale.new t st).tonic.isSome = true) := by
  constructor
  · intro h
    have hb : base t.spelling = [] := base_eq_nil_of_not_mem t.spelling h
    constructor
    · simp [Scale.new, hb]
    · simp [Scale.tonic, Scale.new, hb]
  · intro h
    simp only [ALPHABET, List.mem_cons, List.not_mem_nil, or_false] at h
    rcases h with h | h | h | h | h | h | h <;>
      simp only [Scale.tonic, Scale.new, h] <;> rfl

/-- C10 witness: the theorem applied at the non-letter spelling X (empty
scale, absent tonic) and at the letter C (present tonic). -/
theorem scale_new_unknown_letter_empty_tonic_none_witness :
    ((Note.new 'X' 0).spelling ∉ ALPHABET ∧
      (Scale.new (Note.new 'X' 0) ScaleType.Major).notes = [] ∧
      (Scale.new (Note.new 'X' 0) ScaleType.Major).tonic = none) ∧
    ((Note.new 'C' 0).spelling ∈ ALPHABET ∧
      (Scale.new (Note.new 'C' 0) ScaleType.Major).tonic.isSome = true) :=
  ⟨⟨by decide,
    (scale_new_unknown_letter_empty_tonic_none (Note.new 'X' 0)
      ScaleType.Major).1 (by decide)⟩,
   ⟨by decide,
    (scale_new_unknown_letter_empty_tonic_none (Note.new 'C' 0)
      ScaleType.Major).2 (by decide)⟩⟩

/-- C4 counterexample: the main-menu handler maps the key '3' to Noop —
there is no Char('3') arm in the source match — so pressing '3' leaves the
current page unchanged instead of transitioning to a placeholder screen;
the claimed transition for '3' is refuted. -/
theorem main_menu_key3_is_noop :
    main_page_handler (Key.char '3') = Action.Noop ∧
    run_step main_page (Key.char '3') = some main_page := by decide

/-- C4 (amended): the main-menu handler maps '1' to a transition to the
fixed numeric placeholder page and '2' to the fixed letter placeholder
page (no scale-type quiz page exists in src/main.rs), maps 'q' and 'Q' to
termination, and maps every other key — including '3' — to a no-op that
leaves the current page unchanged. -/
theorem main_menu_handler_characterization :
    main_page_handler (Key.char '1') =
      Action.Render { text := "1\n2\n3\n4\n5\n6\n7\n8\n9\n10",
                      handler := HandlerId.mainPageHandler } ∧
    main_page_handler (Key.char '2') =
      Action.Render { text := "A\nB\nC\nD\nE\nF\nG\nH\nI\nJ",
                      handler := HandlerId.mainPageHandler } ∧
    main_page_handler (Key.char 'q') = Action.Destroy ∧
    main_page_handler (Key.char 'Q') = Action.Destroy ∧
    ∀ k : Key,
      k ∉ [Key.char '1', Key.char '2', Key.char 'q', Key.char 'Q'] →
      main_page_handler k = Action.Noop ∧
        run_step main_page k = some main_page := by
  refine ⟨by decide, by decide, by decide, by decide, ?_⟩
  intro k hk
  simp only [List.mem_cons, List.not_mem_nil, or_false, not_or] at hk
  obtain ⟨h1, h2, h3, h4⟩ := hk
  have hstep : main_page_handler k = Action.Noop →
      run_step main_page k = some main_page := by
    intro hnoop
    simp [run_step, handle, main_page, hnoop]
  cases k with
  | char c =>
    have hc1 : c ≠ '1' := fun h => h1 (by rw [h])
    have hc2 : c ≠ '2' := fun h => h2 (by rw [h])
    have hcq : ¬(c = 'q' ∨ c = 'Q') := by
      rintro (h | h)
      · exact h3 (by rw [h])
      · exact h4 (by rw [h])
    have hnoop : main_page_handler (Key.char c) = Action.Noop := by
      simp [main_page_handler, hc1, hc2, hcq]
    exact ⟨hnoop, hstep hnoop⟩
  | enter => exact ⟨rfl, hstep rfl⟩
  | escape => exact ⟨rfl, hstep rfl⟩
  | arrowUp => exact ⟨rfl, hstep rfl⟩
  | arrowDown => exact ⟨rfl, hstep rfl⟩

/-- C4 witness: the no-op branch of the characterization applied at the
unrecognized key 'z'. -/
theorem main_menu_handler_characterization_witness :
    Key.char 'z' ∉ [Key.char '1', Key.char '2', Key.char 'q', Key.char 'Q'] ∧
    (main_page_handler (Key.char 'z') = Action.Noop ∧
      run_step main_page (Key.char 'z') = some main_page) :=
  ⟨by decide,
    main_menu_handler_characterization.2.2.2.2 (Key.char 'z') (by decide)⟩

/-- C5 counterexample: on the key '1' the main-menu handler renders the
fixed ten-line numeric placeholder page, whose text has no line containing
a ScaleType label (so zero labeled answer choices, not 7) and no line
containing a natural letter (so zero tonic/scale display lines, not 1). -/
theorem key1_page_not_quiz_text :
    main_page_handler (Key.char '1') =
      Action.Render { text := "1\n2\n3\n4\n5\n6\n7\n8\n9\n10",
                      handler := HandlerId.mainPageHandler } ∧
    (text_lines "1\n2\n3\n4\n5\n6\n7\n8\n9\n10").countP quiz_choice_line = 0 ∧
    (text_lines "1\n2\n3\n4\n5\n6\n7\n8\n9\n10").countP tonic_scale_display_line = 0 ∧
    quiz_page_text "1\n2\n3\n4\n5\n6\n7\n8\n9\n10" = false := by decide

/-- C5 (amended): whenever the main-menu handler receives the key '1', the
page it returns in its Render action is the fixed placeholder whose text
is the ten numerals 1 through 10 on separate lines; it contains no labeled
answer choices and no tonic/scale display line. -/
theorem key1_renders_numeric_placeholder :
    main_page_handler (Key.char '1') =
      Action.Render { text := "1\n2\n3\n4\n5\n6\n7\n8\n9\n10",
                      handler := HandlerId.mainPageHandler } ∧
    text_lines "1\n2\n3\n4\n5\n6\n7\n8\n9\n10" =
      ["1", "2", "3", "4", "5", "6", "7", "8", "9", "10"] := by decide

end MusicQuiz
